import Mathlib

/-!
Verification of the catalogue search application (`src/app.py`).

The program loads a CSV of book records, normalizes fields, builds a
lowercase search blob and a numeric year per record, then filters,
sorts and paginates the records.  This file gives a shallow embedding
of that pipeline:

* a pandas DataFrame row becomes a `RawRow` / `Record` structure with
  `Option String` fields (`none` models pandas NaN / Python `None`);
* the module-level filter statements become list functions;
* `pandas.Series.sort_values` becomes a stable sort by the same key
  (`na_position` handled explicitly);
* slicing becomes `List.drop` / `List.take`.

Machine-specific aspects (Unicode case tables, float years) are
modelled with per-character lowercasing / whitespace stripping and
integer years, which agree with Python on the data the claims
quantify over.
-/

namespace CatalogueApp

/-- Python `str.lower()` as used in `app.py` (applied to queries and to the
search blob): lowercase every character. -/
def pyLower (s : String) : String := ⟨s.data.map Char.toLower⟩

/-- Python `str.strip()` as used in `app.py`: remove leading and trailing
whitespace. -/
def pyStrip (s : String) : String :=
  ⟨((s.data.dropWhile Char.isWhitespace).reverse.dropWhile
      Char.isWhitespace).reverse⟩

/-- The sentinel strings blanked out by `clean_value` in `app.py`
(line 125): `['unknown', 'nan', 'null', '', 'none']`. -/
def sentinels : List String := ["unknown", "nan", "null", "", "none"]

/-- `clean_value` from `app.py` (lines 122-126): `None`/NaN stays absent;
otherwise the value is stringified and stripped, and becomes absent when
its lowercase form is a sentinel, else the stripped string is kept. -/
def clean_value (val : Option String) : Option String :=
  match val with
  | none => none
  | some v =>
    let s := pyStrip v
    if pyLower s ∈ sentinels then none else some s

/-- One raw CSV row, before normalization.  `none` models a missing (NaN)
cell.  Only the columns the claims mention are kept. -/
structure RawRow where
  bookTitle : Option String
  authors   : Option String
  year      : Option String
  pubDate   : Option String
  category  : Option String
  language  : Option String
  publisher : Option String
deriving DecidableEq

/-- One prepared record, after `load_and_prep_data`: normalized textual
fields plus the derived `Year_Numeric` and `Search_Blob` columns. -/
structure Record where
  bookTitle   : Option String
  authors     : Option String
  year        : Option String
  pubDate     : Option String
  category    : Option String
  language    : Option String
  publisher   : Option String
  yearNumeric : Option Int
  searchBlob  : String
deriving DecidableEq

/-- `pd.to_numeric(..., errors='coerce')` on the cleaned `Year` strings
(line 133), modelled as integer parsing: a failed parse is absent, not an
error.  (The catalogue years are integral; fractional floats are outside
the data the claims quantify over.) -/
def toNumericYear (s : String) : Option Int := s.toInt?

/-- The per-row body of `load_and_prep_data` (lines 113-144).
`hasYearCol` / `hasPDCol` record whether the `Year` and
`Publication Date` columns exist in the CSV.  Steps, in source order:
fill `Year` from `Publication Date` (the `fillna` at line 118 fills only
genuinely missing cells and runs before cleaning), apply `clean_value`
to every textual column, derive `Year_Numeric`, and build `Search_Blob`
as the lowercased space-joined concatenation of title, author, year,
category and language with missing fields as `''` (lines 138-144). -/
def prepRow (hasYearCol hasPDCol : Bool) (row : RawRow) : Record :=
  let year0 : Option String :=
    if hasPDCol && !hasYearCol then row.pubDate
    else if hasPDCol && hasYearCol then
      match row.year with
      | none => row.pubDate
      | some y => some y
    else row.year
  let t  := clean_value row.bookTitle
  let a  := clean_value row.authors
  let y  := clean_value year0
  let pd := clean_value row.pubDate
  let c  := clean_value row.category
  let lg := clean_value row.language
  let pb := clean_value row.publisher
  { bookTitle := t, authors := a, year := y, pubDate := pd,
    category := c, language := lg, publisher := pb,
    yearNumeric := y.bind toNumericYear,
    searchBlob := pyLower (t.getD "" ++ " " ++ a.getD "" ++ " " ++
      y.getD "" ++ " " ++ c.getD "" ++ " " ++ lg.getD "") }

/-- Result of `load_and_prep_data`: the prepared records plus whether the
error branch (`st.error` at line 110) ran. -/
structure LoadResult where
  records    : List Record
  errorShown : Bool
deriving DecidableEq

/-- `load_and_prep_data` (lines 103-146): `input = none` models
`pd.read_csv` raising (file unreadable or unparseable), in which case the
`except` branch reports the error and returns an empty DataFrame; otherwise
every row is prepared. -/
def load_and_prep_data (hasYearCol hasPDCol : Bool)
    (input : Option (List RawRow)) : LoadResult :=
  match input with
  | none => { records := [], errorShown := true }
  | some rows =>
    { records := rows.map (prepRow hasYearCol hasPDCol), errorShown := false }

/-! ### Text query (omni-search), lines 180-183

`filtered_df['Search_Blob'].str.contains(query_str, case=False)` treats the
query as a regular expression (`pandas` defaults to `regex=True` and calls
`re.search`); a query that is an invalid regex raises `re.error` out of
the script.  We model exactly the fragment of Python regular expressions
in which every character stands for itself plus the `.` metacharacter.
Pattern compilation is partial: a query containing any other regex
metacharacter (`^ $ * + ? ( ) [ ] \x7b \x7d \\ |`) is outside the
modelled fragment — there pandas either applies wider regex semantics or
raises — and compilation yields `none`, so no theorem below asserts
anything about such queries. -/

/-- A compiled pattern token: a literal character, or `.` (matches any
character). -/
inductive RTok where
  | lit (c : Char)
  | dot
deriving DecidableEq

/-- The special characters of Python's `re` syntax. -/
def pyRegexMeta : List Char :=
  ['.', '^', '$', '*', '+', '?', '(', ')', '[', ']', '\x7b', '\x7d',
   '\\', '|']

/-- Compile a query to pattern tokens: `.` becomes the any-character
token, an ordinary character matches itself, and any other regex
metacharacter puts the query outside the modelled fragment (`none`). -/
def compilePat : List Char → Option (List RTok)
  | [] => some []
  | c :: cs =>
    if c = '.' then (compilePat cs).map (fun ts => RTok.dot :: ts)
    else if c ∈ pyRegexMeta then none
    else (compilePat cs).map (fun ts => RTok.lit c :: ts)

/-- Whether one token matches one character. -/
def tokMatch : RTok → Char → Bool
  | RTok.lit c, d => c = d
  | RTok.dot, _ => true

/-- Whether the pattern matches a prefix of the text. -/
def matchHere : List RTok → List Char → Bool
  | [], _ => true
  | _ :: _, [] => false
  | t :: ts, c :: cs => tokMatch t c && matchHere ts cs

/-- `re.search`: does the pattern match starting at some position of the
text? -/
def reSearch (pat : List RTok) : List Char → Bool
  | [] => matchHere pat []
  | c :: cs => matchHere pat (c :: cs) || reSearch pat cs

/-- The omni-search filter (lines 180-183): `if search_query:` skips the
filter for an empty query; otherwise the lowercased, stripped query is
searched as a regex in each record's `Search_Blob` (`case=False` adds
`re.IGNORECASE`, inert because the code lowercases the query at line 182
and the blob at line 144).  The result is `none` when the query falls
outside the modelled regex fragment. -/
def applySearch (q : String) (df : List Record) : Option (List Record) :=
  if q = "" then some df
  else
    (compilePat (pyStrip (pyLower q)).data).map
      (fun ts => df.filter (fun r => reSearch ts r.searchBlob.data))

/-- Plain substring containment of character lists (used to state the
spec's reading of the text predicate). -/
def isSubstr (pat : List Char) : List Char → Bool
  | [] => pat.isPrefixOf []
  | c :: cs => pat.isPrefixOf (c :: cs) || isSubstr pat cs

/-- The text predicate as the spec words it: the lowercased, trimmed query
occurs as a substring of `Search_Blob` (the blob is lowercase by
construction, so this is the case-insensitive test), and an absent or empty
query always passes. -/
def specTextPredicate (q : String) (r : Record) : Bool :=
  isSubstr (pyStrip (pyLower q)).data r.searchBlob.data

/-! ### Facet filters (lines 216-223) -/

/-- One facet application, `if sel: filtered_df = filtered_df[filtered_df[col].isin(sel)]`:
an empty selection (falsy in Python) leaves the frame unchanged; otherwise
a row passes when its cell value is in the selection (a NaN/absent cell is
never in it). -/
def applyFacet (sel : List String) (field : Record → Option String)
    (df : List Record) : List Record :=
  match sel with
  | [] => df
  | _ :: _ =>
    df.filter (fun r =>
      match field r with
      | none => false
      | some v => sel.contains v)

/-! ### Year-range facet (lines 204-213 and 225-235) -/

/-- `data['Year_Numeric'].dropna()` (line 206). -/
def validYears (data : List Record) : List Int :=
  data.filterMap (fun r => r.yearNumeric)

/-- `int(valid_years.min()), int(valid_years.max())` guarded by
`if not valid_years.empty` (lines 207-208): the dataset-wide year bounds,
absent when no record has a numeric year. -/
def yearBounds (data : List Record) : Option (Int × Int) :=
  match validYears data with
  | [] => none
  | y :: ys => some (ys.foldl min y, ys.foldl max y)

/-- The year-range facet application (lines 225-235).  `selYears = none`
models the `sel_years = None` branch (line 212).  The filter runs only when
a range is selected and `valid_years` is nonempty; a selection equal to the
full `(min_y, max_y)` range is skipped, and otherwise a row passes when its
`Year_Numeric` is present and within the inclusive range (NaN comparisons
are false in pandas, so absent years are dropped). -/
def applyYearFacet (data : List Record) (selYears : Option (Int × Int))
    (df : List Record) : List Record :=
  match selYears, yearBounds data with
  | some (lo, hi), some (minY, maxY) =>
    if lo = minY ∧ hi = maxY then df
    else
      df.filter (fun r =>
        match r.yearNumeric with
        | none => false
        | some y => lo ≤ y ∧ y ≤ hi)
  | _, _ => df

/-! ### Sorting (lines 266-272)

`sort_values('Year_Numeric', ascending=..., na_position='last')` is
modelled as a stable sort (`List.mergeSort`) by the same key, with absent
years ordered after every present year in both directions. -/

/-- Whether a record has a numeric year. -/
def hasYear (r : Record) : Bool := r.yearNumeric.isSome

/-- Ascending comparison on `Year_Numeric` with NaN last
(`ascending=True, na_position='last'`). -/
def leAsc (a b : Record) : Bool :=
  match a.yearNumeric, b.yearNumeric with
  | none, none => true
  | none, some _ => false
  | some _, none => true
  | some x, some y => x ≤ y

/-- Descending comparison on `Year_Numeric` with NaN last
(`ascending=False, na_position='last'`). -/
def leDesc (a b : Record) : Bool :=
  match a.yearNumeric, b.yearNumeric with
  | none, none => true
  | none, some _ => false
  | some _, none => true
  | some x, some y => y ≤ x

/-- The `Year (Newest)` sort. -/
def sortNewest (df : List Record) : List Record := df.mergeSort leDesc

/-- The `Year (Oldest)` sort. -/
def sortOldest (df : List Record) : List Record := df.mergeSort leAsc

/-! ### Pagination (lines 277-302) -/

/-- `ITEMS_PER_PAGE` (line 277). -/
def ITEMS_PER_PAGE : Nat := 20

/-- `math.ceil(len(filtered_df) / ITEMS_PER_PAGE)` (line 279). -/
def totalPages (df : List Record) : Nat :=
  (df.length + (ITEMS_PER_PAGE - 1)) / ITEMS_PER_PAGE

/-- The displayed slice (lines 278-302): when more than one page of results
exists, `filtered_df.iloc[start:end]` with `start = (page-1)*20`,
`end = start+20`; otherwise the whole filtered frame. -/
def paginate (df : List Record) (page : Nat) : List Record :=
  if df.length > ITEMS_PER_PAGE then
    ((df.drop ((page - 1) * ITEMS_PER_PAGE)).take ITEMS_PER_PAGE)
  else df

/-! ### Sample data used by witnesses and counterexamples -/

/-- A record with the given search blob and numeric year and every other
field absent; used to instantiate theorems at concrete inputs. -/
def sampleRecord (blob : String) (yn : Option Int) : Record :=
  { bookTitle := none, authors := none, year := none, pubDate := none,
    category := none, language := none, publisher := none,
    yearNumeric := yn, searchBlob := blob }

/-! ## Claims -/

/-- C4: for every row and textual field, a missing value or a value whose
trimmed, case-folded form is in the sentinel set normalizes to absent;
any other value normalizes to its trimmed string. -/
theorem clean_value_spec (s : String) :
    clean_value none = none ∧
    (pyLower (pyStrip s) ∈ sentinels → clean_value (some s) = none) ∧
    (pyLower (pyStrip s) ∉ sentinels → clean_value (some s) = some (pyStrip s)) := by
  refine ⟨rfl, fun h => ?_, fun h => ?_⟩ <;> simp [clean_value, h]

/-- Witness for `clean_value_spec`: a sentinel spelling is blanked and an
ordinary title is kept trimmed. -/
theorem clean_value_spec_witness :
    clean_value (some " Unknown ") = none ∧
    clean_value (some " Ramayana ") = some "Ramayana" :=
  ⟨(clean_value_spec " Unknown ").2.1 (by decide),
   (clean_value_spec " Ramayana ").2.2 (by decide)⟩

/-- C5: every loaded record's `Search_Blob` is the lowercase of the
space-separated concatenation of its normalized title, author, year,
category and language, absent fields contributing the empty string. -/
theorem searchBlob_spec (hY hPD : Bool) (row : RawRow) :
    (prepRow hY hPD row).searchBlob =
      pyLower (String.intercalate " "
        [(prepRow hY hPD row).bookTitle.getD "",
         (prepRow hY hPD row).authors.getD "",
         (prepRow hY hPD row).year.getD "",
         (prepRow hY hPD row).category.getD "",
         (prepRow hY hPD row).language.getD ""]) := by
  simp only [prepRow, String.intercalate, String.intercalate.go,
    String.append_assoc]

/-- C9: when the source file cannot be read or parsed, the loader reports
the failure and returns exactly the empty collection, with no partial
records. -/
theorem load_failure_spec (hY hPD : Bool) :
    (load_and_prep_data hY hPD none).records = [] ∧
    (load_and_prep_data hY hPD none).errorShown = true :=
  ⟨rfl, rfl⟩

/-- C8: a facet filter with an empty selection is a no-op, and otherwise a
record is kept iff its normalized field value is a member of the selected
set (an absent field is never a member). -/
theorem applyFacet_spec (sel : List String) (field : Record → Option String)
    (df : List Record) (r : Record) :
    (sel = [] → applyFacet sel field df = df) ∧
    (r ∈ applyFacet sel field df ↔
      r ∈ df ∧ (sel = [] ∨ ∃ v, field r = some v ∧ v ∈ sel)) := by
  constructor
  · intro h; subst h; rfl
  · cases sel with
    | nil => simp [applyFacet]
    | cons a as =>
      simp only [applyFacet, List.mem_filter]
      constructor
      · rintro ⟨hm, hp⟩
        refine ⟨hm, Or.inr ?_⟩
        cases hf : field r with
        | none => rw [hf] at hp; exact absurd hp (by simp)
        | some v =>
          rw [hf] at hp
          exact ⟨v, rfl, by simpa using hp⟩
      · rintro ⟨hm, h | ⟨v, hv, hmem⟩⟩
        · exact absurd h (by simp)
        · exact ⟨hm, by rw [hv]; simpa using hmem⟩

/-- Witness for `applyFacet_spec`: the empty selection leaves a concrete
one-record frame unchanged. -/
theorem applyFacet_spec_witness :
    applyFacet [] (fun r => r.language) [sampleRecord "b" none] =
      [sampleRecord "b" none] :=
  (applyFacet_spec [] (fun r => r.language) [sampleRecord "b" none]
    (sampleRecord "b" none)).1 rfl

/-- C1: with nonempty year bounds, a selection equal to the dataset-wide
`(min, max)` skips the year predicate entirely, while a strictly narrower
selection keeps exactly the records whose `Year_Numeric` is present and
within the inclusive range (absent-year records are all excluded). -/
theorem yearFacet_spec (data df : List Record) (r : Record)
    (lo hi minY maxY : Int) (hb : yearBounds data = some (minY, maxY)) :
    (lo = minY → hi = maxY → applyYearFacet data (some (lo, hi)) df = df) ∧
    (minY ≤ lo → hi ≤ maxY → ¬(lo = minY ∧ hi = maxY) →
      (r ∈ applyYearFacet data (some (lo, hi)) df ↔
        r ∈ df ∧ ∃ y, r.yearNumeric = some y ∧ lo ≤ y ∧ y ≤ hi)) := by
  simp only [applyYearFacet, hb]
  constructor
  · intro h1 h2; subst h1; subst h2; simp
  · intro _ _ hne
    rw [if_neg hne]
    simp only [List.mem_filter]
    constructor
    · rintro ⟨hm, hp⟩
      refine ⟨hm, ?_⟩
      cases hy : r.yearNumeric with
      | none => rw [hy] at hp; exact absurd hp (by simp)
      | some y =>
        rw [hy] at hp
        exact ⟨y, rfl, by simpa using hp⟩
    · rintro ⟨hm, y, hy, h1, h2⟩
      exact ⟨hm, by rw [hy]; simpa using ⟨h1, h2⟩⟩

/-- Witness for `yearFacet_spec`: bounds `(1900, 2000)`, narrower selection
`(1950, 2000)`; a 1900 record is excluded exactly as the predicate says. -/
theorem yearFacet_spec_witness :
    sampleRecord "a" (some 1900) ∈
        applyYearFacet
          [sampleRecord "a" (some 1900), sampleRecord "b" (some 2000)]
          (some (1950, 2000))
          [sampleRecord "a" (some 1900), sampleRecord "b" (some 2000)] ↔
      sampleRecord "a" (some 1900) ∈
          [sampleRecord "a" (some 1900), sampleRecord "b" (some 2000)] ∧
        ∃ y, (sampleRecord "a" (some 1900)).yearNumeric = some y ∧
          1950 ≤ y ∧ y ≤ 2000 :=
  (yearFacet_spec
    [sampleRecord "a" (some 1900), sampleRecord "b" (some 2000)]
    [sampleRecord "a" (some 1900), sampleRecord "b" (some 2000)]
    (sampleRecord "a" (some 1900)) 1950 2000 1900 2000 (by decide)).2
    (by decide) (by decide) (by decide)

/-- C10: when no record has a parseable year, the slider is disabled
(`yearBounds` is absent) and the year facet never filters anything,
whatever selection value is around. -/
theorem emptyYears_spec (data df : List Record) (sel : Option (Int × Int))
    (h : validYears data = []) :
    yearBounds data = none ∧ applyYearFacet data sel df = df := by
  have hb : yearBounds data = none := by unfold yearBounds; rw [h]
  refine ⟨hb, ?_⟩
  unfold applyYearFacet
  rw [hb]
  rcases sel with _ | ⟨lo, hi⟩ <;> rfl

/-- Witness for `emptyYears_spec`: a dataset whose only record has no
numeric year passes the facet untouched even with a selection present. -/
theorem emptyYears_spec_witness :
    yearBounds [sampleRecord "a" none] = none ∧
    applyYearFacet [sampleRecord "a" none] (some (0, 0))
      [sampleRecord "a" none] = [sampleRecord "a" none] :=
  emptyYears_spec [sampleRecord "a" none] [sampleRecord "a" none]
    (some (0, 0)) (by decide)

/-! ### Text query: supporting lemmas -/

/-- A metacharacter-free query compiles to the list of its literal
tokens. -/
lemma compilePat_of_noMeta : ∀ (pat : List Char),
    (∀ c ∈ pat, c ∉ pyRegexMeta) →
    compilePat pat = some (pat.map RTok.lit)
  | [], _ => rfl
  | a :: as, h => by
    have ha : a ∉ pyRegexMeta := h a (by simp)
    have hdot : a ≠ '.' := fun hc => ha (hc ▸ by simp [pyRegexMeta])
    have ih := compilePat_of_noMeta as (fun c hc => h c (by simp [hc]))
    simp [compilePat, hdot, ha, ih]

/-- A match of an all-literal pattern at the head of the text is exactly a
prefix test. -/
lemma matchHere_lits : ∀ (pat s : List Char),
    matchHere (pat.map RTok.lit) s = pat.isPrefixOf s
  | [], s => by cases s <;> simp [matchHere, List.isPrefixOf]
  | a :: as, [] => by simp [matchHere, List.isPrefixOf]
  | a :: as, b :: bs => by
    simp [matchHere, List.isPrefixOf, tokMatch, matchHere_lits as bs,
      Bool.beq_eq_decide_eq]

/-- Regex search of an all-literal pattern is exactly substring
containment. -/
lemma reSearch_lits : ∀ (pat s : List Char),
    reSearch (pat.map RTok.lit) s = isSubstr pat s
  | pat, [] => by
    rw [reSearch, isSubstr, matchHere_lits pat []]
  | pat, c :: cs => by
    rw [reSearch, isSubstr, matchHere_lits pat (c :: cs),
      reSearch_lits pat cs]

/-- The empty pattern occurs in every text. -/
lemma isSubstr_nil (s : List Char) : isSubstr [] s = true := by
  cases s <;> simp [isSubstr, List.isPrefixOf]

/-- C2, counterexample: the claim reads the text predicate as a substring
test, but `str.contains` treats the query as a regular expression: the
query `"."` keeps a record whose blob is `"abc"` even though `"."` is not
a substring of `"abc"`. -/
theorem applySearch_counterexample :
    applySearch "." [sampleRecord "abc" none] =
      some [sampleRecord "abc" none] ∧
    specTextPredicate "." (sampleRecord "abc" none) = false := by
  constructor <;> decide

/-- C2, amended: the predicate searches the lowercased, stripped query as
a regular expression in `Search_Blob`; an empty query skips the filter,
and for queries free of regex metacharacters the predicate coincides with
the case-insensitive substring test against `Search_Blob`.  Queries
containing other metacharacters are outside the modelled fragment (pandas
applies wider regex semantics, or raises `re.error` on an invalid
pattern). -/
theorem applySearch_spec (q : String) (df : List Record) (r : Record)
    (hq : ∀ c ∈ (pyStrip (pyLower q)).data, c ∉ pyRegexMeta) :
    (q = "" → applySearch q df = some df) ∧
    applySearch q df = some (df.filter (fun x => specTextPredicate q x)) ∧
    (r ∈ df.filter (fun x => specTextPredicate q x) ↔
      r ∈ df ∧ specTextPredicate q r = true) := by
  refine ⟨fun h => by simp [applySearch, h], ?_, List.mem_filter⟩
  by_cases hq0 : q = ""
  · subst hq0
    have hdata : (pyStrip (pyLower "")).data = [] := by decide
    have hall : df.filter (fun x => specTextPredicate "" x) = df := by
      rw [List.filter_eq_self]
      intro x _
      rw [specTextPredicate, hdata, isSubstr_nil]
    rw [hall]
    simp [applySearch]
  · rw [applySearch, if_neg hq0, compilePat_of_noMeta _ hq, Option.map_some']
    congr 1
    apply List.filter_congr
    intro x _
    rw [reSearch_lits, specTextPredicate]

/-- Witness for `applySearch_spec`: the query `1950` filters a concrete
frame to the records whose blob contains `1950`. -/
theorem applySearch_spec_witness :
    applySearch "1950" [sampleRecord "history 1950" none] =
      some (List.filter (fun x => specTextPredicate "1950" x)
        [sampleRecord "history 1950" none]) :=
  (applySearch_spec "1950" [sampleRecord "history 1950" none]
    (sampleRecord "history 1950" none) (by decide)).2.1

/-! ### Year back-fill (C3) -/

/-- A raw row whose `Year` cell holds the sentinel string `unknown` while
its `Publication Date` holds a real year. -/
def rowSentinelYear : RawRow :=
  { bookTitle := none, authors := none, year := some "unknown",
    pubDate := some "1950", category := none, language := none,
    publisher := none }

/-- A raw row with a missing `Year` and a sentinel `Publication Date`. -/
def rowMissingYear : RawRow :=
  { bookTitle := none, authors := none, year := none,
    pubDate := some "null", category := none, language := none,
    publisher := none }

/-- C3, counterexample: the `fillna` back-fill runs before sentinel
cleaning and touches only genuinely missing cells, so a row whose raw
`Year` is the string `unknown` ends with an absent `Year` while its
`Publication Date` stays present — contradicting the claim that an absent
`Year` forces an absent-or-sentinel `Publication Date`. -/
theorem year_backfill_counterexample :
    (prepRow true true rowSentinelYear).year = none ∧
    (prepRow true true rowSentinelYear).pubDate = some "1950" := by
  constructor <;> decide

/-- C3, amended: with a `Publication Date` column present, a missing
`Year` column makes `Year` the normalization of `Publication Date`; when
both columns exist, only rows whose raw `Year` cell is genuinely missing
(NaN) are back-filled from `Publication Date` — rows with a present raw
`Year` keep the normalization of their own `Year` — and for back-filled
rows an absent final `Year` does imply an absent final
`Publication Date`. -/
theorem year_backfill_spec (row : RawRow) :
    (prepRow false true row).year = clean_value row.pubDate ∧
    (∀ s, row.year = some s →
      (prepRow true true row).year = clean_value row.year) ∧
    (row.year = none → (prepRow true true row).year = clean_value row.pubDate) ∧
    (row.year = none → (prepRow true true row).year = none →
      (prepRow true true row).pubDate = none) := by
  refine ⟨?_, fun s hs => ?_, fun h => ?_, fun h h2 => ?_⟩
  · simp [prepRow]
  · simp [prepRow, hs]
  · simp [prepRow, h]
  · have hy : (prepRow true true row).year = clean_value row.pubDate := by
      simp [prepRow, h]
    have hpd : (prepRow true true row).pubDate = clean_value row.pubDate := by
      simp [prepRow]
    rw [hpd, ← hy, h2]

/-- Witness for `year_backfill_spec`: a sentinel raw `Year` is not
back-filled, and a row with missing `Year` and sentinel
`Publication Date` ends with both fields absent. -/
theorem year_backfill_spec_witness :
    (prepRow true true rowSentinelYear).year =
      clean_value rowSentinelYear.year ∧
    (prepRow true true rowMissingYear).pubDate = none :=
  ⟨(year_backfill_spec rowSentinelYear).2.1 "unknown" rfl,
   (year_backfill_spec rowMissingYear).2.2.2 rfl (by decide)⟩

/-! ### Sorting: supporting lemmas -/

/-- The year key used for comparing present-year records. -/
def yearKey (r : Record) : Int := r.yearNumeric.getD 0

/-- Two records carry different numeric years whenever both are present. -/
def distinctYears (a b : Record) : Prop :=
  ∀ x ∈ a.yearNumeric, ∀ y ∈ b.yearNumeric, x ≠ y

lemma leAsc_trans (a b c : Record) (h1 : leAsc a b = true)
    (h2 : leAsc b c = true) : leAsc a c = true := by
  unfold leAsc at *
  cases ha : a.yearNumeric <;> cases hb : b.yearNumeric <;>
    cases hc : c.yearNumeric <;> simp_all
  omega

lemma leAsc_total (a b : Record) : (leAsc a b || leAsc b a) = true := by
  unfold leAsc
  cases ha : a.yearNumeric <;> cases hb : b.yearNumeric <;> simp_all
  omega

lemma leDesc_trans (a b c : Record) (h1 : leDesc a b = true)
    (h2 : leDesc b c = true) : leDesc a c = true := by
  unfold leDesc at *
  cases ha : a.yearNumeric <;> cases hb : b.yearNumeric <;>
    cases hc : c.yearNumeric <;> simp_all
  omega

lemma leDesc_total (a b : Record) : (leDesc a b || leDesc b a) = true := by
  unfold leDesc
  cases ha : a.yearNumeric <;> cases hb : b.yearNumeric <;> simp_all
  omega

/-- In either direction, a record ordered before a present-year record has
a present year itself (absent years go last). -/
lemma leAsc_hasYear (a b : Record) (h : leAsc a b = true)
    (hb : hasYear b = true) : hasYear a = true := by
  unfold leAsc at h
  unfold hasYear at *
  cases ha : a.yearNumeric <;> cases hb2 : b.yearNumeric <;> simp_all

lemma leDesc_hasYear (a b : Record) (h : leDesc a b = true)
    (hb : hasYear b = true) : hasYear a = true := by
  unfold leDesc at h
  unfold hasYear at *
  cases ha : a.yearNumeric <;> cases hb2 : b.yearNumeric <;> simp_all

/-- A list that is pairwise ordered by a relation that never puts an
element lacking property `p` before one having it splits as its `p`-part
followed by its non-`p`-part. -/
lemma filter_split_of_pairwise {α : Type} {R : α → α → Prop} {p : α → Bool}
    (hR : ∀ a b, R a b → p b = true → p a = true) :
    ∀ {l : List α}, l.Pairwise R →
      l.filter p ++ l.filter (fun x => !p x) = l := by
  intro l hl
  induction hl with
  | nil => rfl
  | @cons a l ha _ ih =>
    by_cases hpa : p a = true
    · rw [List.filter_cons, List.filter_cons]
      simp [hpa, ih]
    · have hpa' : p a = false := by revert hpa; cases p a <;> simp
      have hall : ∀ b ∈ l, p b = false := by
        intro b hb
        cases hpb : p b
        · rfl
        · exact absurd (hR a b (ha b hb) hpb) (by simp [hpa'])
      have h1 : l.filter p = [] := by
        rw [List.filter_eq_nil_iff]
        intro b hb
        simp [hall b hb]
      have h2 : l.filter (fun x => !p x) = l := by
        rw [List.filter_eq_self]
        intro b hb
        simp [hall b hb]
      rw [List.filter_cons, List.filter_cons]
      simp [hpa', h1, h2]

/-- `distinctYears` is symmetric. -/
lemma distinctYears_symm : ∀ {x y : Record}, distinctYears x y →
    distinctYears y x :=
  fun h u hu v hv => (h v hv u hu).symm

/-- From an order fact and distinctness between two present-year records,
the keys are strictly ordered. -/
lemma yearKey_lt_of_leAsc (a b : Record) (hle : leAsc a b = true)
    (hD : distinctYears a b) (hya : hasYear a = true)
    (hyb : hasYear b = true) : yearKey a < yearKey b := by
  unfold hasYear at hya hyb
  obtain ⟨x, hx⟩ := Option.isSome_iff_exists.mp hya
  obtain ⟨y, hy⟩ := Option.isSome_iff_exists.mp hyb
  have hxy : x ≠ y := hD x (by simp [hx]) y (by simp [hy])
  have hle' : x ≤ y := by
    unfold leAsc at hle
    rw [hx, hy] at hle
    simpa using hle
  unfold yearKey
  rw [hx, hy]
  simp only [Option.getD_some]
  omega

/-- C6, counterexample: with a tie in `Year_Numeric` the stable sorts keep
the original relative order in both directions, so reversing the
Year-Newest order does not give the Year-Oldest order even though every
record has a present year. -/
theorem sortYear_counterexample :
    (sortNewest [sampleRecord "a" (some 1950),
        sampleRecord "b" (some 1950)]).reverse ≠
      sortOldest [sampleRecord "a" (some 1950),
        sampleRecord "b" (some 1950)] ∧
    ∀ r ∈ [sampleRecord "a" (some 1950), sampleRecord "b" (some 1950)],
      hasYear r = true := by
  constructor
  · have h1 : sortNewest [sampleRecord "a" (some 1950),
        sampleRecord "b" (some 1950)] =
        [sampleRecord "a" (some 1950), sampleRecord "b" (some 1950)] :=
      List.mergeSort_of_sorted (by decide)
    have h2 : sortOldest [sampleRecord "a" (some 1950),
        sampleRecord "b" (some 1950)] =
        [sampleRecord "a" (some 1950), sampleRecord "b" (some 1950)] :=
      List.mergeSort_of_sorted (by decide)
    rw [h1, h2]
    decide
  · decide

/-- C6, amended: for every filtered sequence, Year-Newest and Year-Oldest
are permutations sorted by `Year_Numeric` descending and ascending, with
all absent-year records placed after every present-year record; and when
the present numeric years are pairwise distinct, reversing the Year-Newest
order agrees with the Year-Oldest order on the present-year records.  With
tied years both directions keep the tied records in their original
relative order, so the reversal correspondence fails (see the
counterexample). -/
theorem sortYear_spec (df : List Record) :
    (sortNewest df).Perm df ∧ (sortOldest df).Perm df ∧
    (sortNewest df).Pairwise (fun a b => leDesc a b = true) ∧
    (sortOldest df).Pairwise (fun a b => leAsc a b = true) ∧
    (sortNewest df).filter hasYear ++
        (sortNewest df).filter (fun r => !hasYear r) = sortNewest df ∧
    (sortOldest df).filter hasYear ++
        (sortOldest df).filter (fun r => !hasYear r) = sortOldest df ∧
    ((validYears df).Nodup →
      (sortNewest df).reverse.filter hasYear =
        (sortOldest df).filter hasYear) := by
  have permN : (sortNewest df).Perm df := List.mergeSort_perm df leDesc
  have permO : (sortOldest df).Perm df := List.mergeSort_perm df leAsc
  have sortedN : (sortNewest df).Pairwise (fun a b => leDesc a b = true) :=
    List.sorted_mergeSort leDesc_trans leDesc_total df
  have sortedO : (sortOldest df).Pairwise (fun a b => leAsc a b = true) :=
    List.sorted_mergeSort leAsc_trans leAsc_total df
  have splitN := filter_split_of_pairwise
    (fun a b hab hb => leDesc_hasYear a b hab hb) sortedN
  have splitO := filter_split_of_pairwise
    (fun a b hab hb => leAsc_hasYear a b hab hb) sortedO
  refine ⟨permN, permO, sortedN, sortedO, splitN, splitO, fun hd => ?_⟩
  have hdrec : df.Pairwise distinctYears := by
    unfold validYears at hd
    exact List.pairwise_filterMap.mp hd
  have hdN : (sortNewest df).Pairwise distinctYears :=
    (permN.pairwise_iff distinctYears_symm).mpr hdrec
  have hdO : (sortOldest df).Pairwise distinctYears :=
    (permO.pairwise_iff distinctYears_symm).mpr hdrec
  have hpermAB : ((sortNewest df).reverse.filter hasYear).Perm
      ((sortOldest df).filter hasYear) :=
    (((sortNewest df).reverse_perm.trans permN).trans permO.symm).filter hasYear
  have hstrictB : ((sortOldest df).filter hasYear).Pairwise
      (fun a b => yearKey a < yearKey b) := by
    have hcomb := (sortedO.filter hasYear).and (hdO.filter hasYear)
    refine hcomb.imp_of_mem ?_
    intro a b hma hmb hab
    exact yearKey_lt_of_leAsc a b hab.1 hab.2
      (List.mem_filter.mp hma).2 (List.mem_filter.mp hmb).2
  have hstrictA : ((sortNewest df).reverse.filter hasYear).Pairwise
      (fun a b => yearKey a < yearKey b) := by
    have hrev : (sortNewest df).reverse.Pairwise
        (fun a b => leDesc b a = true) :=
      List.pairwise_reverse.mpr sortedN
    have hdrev : (sortNewest df).reverse.Pairwise distinctYears :=
      List.pairwise_reverse.mpr (hdN.imp fun h => distinctYears_symm h)
    have hcomb := (hrev.filter hasYear).and (hdrev.filter hasYear)
    refine hcomb.imp_of_mem ?_
    intro a b hma hmb hab
    have hya := (List.mem_filter.mp hma).2
    have hyb := (List.mem_filter.mp hmb).2
    have hle : leAsc a b = true := by
      unfold leDesc at hab
      unfold leAsc
      unfold hasYear at hya hyb
      obtain ⟨x, hx⟩ := Option.isSome_iff_exists.mp hya
      obtain ⟨y, hy⟩ := Option.isSome_iff_exists.mp hyb
      rw [hx, hy]
      have := hab.1
      rw [hy, hx] at this
      simpa using this
    exact yearKey_lt_of_leAsc a b hle hab.2 hya hyb
  haveI : IsAntisymm Record (fun a b => yearKey a < yearKey b) :=
    ⟨fun a b h1 h2 => absurd (h1.trans h2) (lt_irrefl _)⟩
  exact List.eq_of_perm_of_sorted hpermAB hstrictA hstrictB

/-- Witness for `sortYear_spec`: a three-record frame with distinct
present years (one absent). -/
theorem sortYear_spec_witness :
    (sortNewest [sampleRecord "x" (some 1950), sampleRecord "y" none,
        sampleRecord "z" (some 1900)]).reverse.filter hasYear =
      (sortOldest [sampleRecord "x" (some 1950), sampleRecord "y" none,
        sampleRecord "z" (some 1900)]).filter hasYear :=
  (sortYear_spec [sampleRecord "x" (some 1950), sampleRecord "y" none,
    sampleRecord "z" (some 1900)]).2.2.2.2.2.2 (by decide)

/-! ### Pagination: supporting lemma -/

/-- Concatenating the 20-element chunks of a list in order reproduces the
list. -/
lemma join_chunks {α : Type} (l : List α) :
    ((List.range ((l.length + 19) / 20)).map
      (fun i => (l.drop (i * 20)).take 20)).flatten = l := by
  suffices H : ∀ (n : Nat) (l : List α), l.length = n →
      ((List.range ((l.length + 19) / 20)).map
        (fun i => (l.drop (i * 20)).take 20)).flatten = l from H l.length l rfl
  intro n
  induction n using Nat.strong_induction_on with
  | _ n ih =>
    intro l hn
    cases l with
    | nil => simp
    | cons a t =>
      have hk : ((a :: t).length + 19) / 20 =
          (((a :: t).drop 20).length + 19) / 20 + 1 := by
        simp only [List.length_drop, List.length_cons]
        omega
      rw [hk, List.range_succ_eq_map, List.map_cons, List.flatten_cons,
        List.map_map]
      have hfun : ((fun i => ((a :: t).drop (i * 20)).take 20) ∘ Nat.succ)
          = (fun i => (((a :: t).drop 20).drop (i * 20)).take 20) := by
        funext i
        simp only [Function.comp_apply, List.drop_drop]
        congr 2
        omega
      rw [hfun]
      have hlt : ((a :: t).drop 20).length < n := by
        simp only [List.length_drop, List.length_cons] at hn ⊢
        omega
      rw [ih (((a :: t).drop 20).length) hlt ((a :: t).drop 20) rfl]
      simp

/-- C7: for every page index `p` between 1 and
`total_pages = ceil(count / 20)`, the displayed page is exactly the slice
`[(p-1)*20, p*20)` of the sorted filtered sequence; concatenating all
pages in order reproduces the whole sequence, and every page before the
last has exactly 20 elements. -/
theorem paginate_spec (df : List Record) (p : Nat)
    (h1 : 1 ≤ p) (h2 : p ≤ totalPages df) :
    paginate df p = (df.drop ((p - 1) * ITEMS_PER_PAGE)).take ITEMS_PER_PAGE ∧
    ((List.range (totalPages df)).map (fun i => paginate df (i + 1))).flatten
      = df ∧
    (p < totalPages df → (paginate df p).length = ITEMS_PER_PAGE) := by
  refine ⟨?_, ?_, ?_⟩
  · unfold paginate
    by_cases hlen : df.length > ITEMS_PER_PAGE
    · rw [if_pos hlen]
    · rw [if_neg hlen]
      have hp1 : p = 1 := by
        unfold totalPages ITEMS_PER_PAGE at h2
        unfold ITEMS_PER_PAGE at hlen
        omega
      subst hp1
      have hle : df.length ≤ ITEMS_PER_PAGE := by omega
      rw [Nat.sub_self, Nat.zero_mul, List.drop_zero,
        List.take_of_length_le hle]
  · by_cases hlen : df.length > ITEMS_PER_PAGE
    · have hpg : ∀ i, paginate df (i + 1) = (df.drop (i * 20)).take 20 := by
        intro i
        unfold paginate
        rw [if_pos hlen]
        simp [ITEMS_PER_PAGE]
      simp only [hpg]
      exact join_chunks df
    · rcases Nat.eq_zero_or_pos df.length with h0 | hpos
      · have hnil : df = [] := List.length_eq_zero.mp h0
        subst hnil
        rfl
      · have hTP1 : totalPages df = 1 := by
          unfold totalPages ITEMS_PER_PAGE
          unfold ITEMS_PER_PAGE at hlen
          omega
        have hpg : paginate df 1 = df := by
          unfold paginate
          rw [if_neg hlen]
        rw [hTP1, show List.range 1 = [0] from rfl]
        simpa using hpg
  · intro hplt
    unfold paginate
    have hlen : df.length > ITEMS_PER_PAGE := by
      unfold totalPages ITEMS_PER_PAGE at hplt h2
      unfold ITEMS_PER_PAGE
      omega
    rw [if_pos hlen]
    simp only [List.length_take, List.length_drop]
    unfold totalPages ITEMS_PER_PAGE at hplt
    unfold ITEMS_PER_PAGE
    omega

/-- Twenty-five records with distinct years: a concrete two-page frame. -/
def manyRecords : List Record :=
  (List.range 25).map (fun i => sampleRecord "" (some (i : Int)))

/-- Witness for `paginate_spec`: page 2 of a 25-record frame is the slice
from element 20 on. -/
theorem paginate_spec_witness :
    paginate manyRecords 2 =
      (manyRecords.drop ((2 - 1) * ITEMS_PER_PAGE)).take ITEMS_PER_PAGE :=
  (paginate_spec manyRecords 2 (by decide) (by decide)).1

end CatalogueApp
